import Mathlib

/-!
Shallow embedding of `pkg/process/dockerproxy/dockerproxy.go`.

The Go file defines a `Filter` holding two maps, `proxyByPID` and
`proxyByTarget`, both pointing at shared, mutable `proxy` records.  We model
the heap of records as a list `store : List proxy`; both maps are association
lists from keys to indices (`Nat`) into the store, so that an in-place
mutation of a record (`discoverProxyIP` setting `p.ip`) is visible through
both maps, exactly as with Go pointers.  Map insertion prepends, and lookup
takes the first match, which models Go map overwrite semantics.

Machine integers: Go `int32` pids and ports are modelled as `Int`; the cast
`int32(port)` in `extractProxyInfo` is modelled by explicit wrapping modulo
`2^32`.  `strconv.Atoi` is modelled character by character, including the
64-bit range check of the `int` platform type.
-/

namespace dockerproxy

/-- model.Addr: an (IP string, port) pair. -/
structure Addr where
  Ip : String
  Port : Int
deriving DecidableEq, Repr

/-- The `proxy` struct of the source: pid, observed ip (empty = unknown),
and forwarding target. -/
structure proxy where
  pid : Int
  ip : String
  target : Addr
deriving DecidableEq, Repr

/-- model.Connection: the fields read by this package. -/
structure Connection where
  Pid : Int
  Laddr : Addr
  Raddr : Addr
deriving DecidableEq, Repr

/-- process.FilledProcess: the fields read by this package. -/
structure FilledProcess where
  Pid : Int
  Cmdline : List String
deriving DecidableEq, Repr

/-- The `Filter` struct: two maps over shared records.  `store` is the heap
of `proxy` records; both association lists map keys to store indices. -/
structure Filter where
  store : List proxy
  proxyByPID : List (Int × Nat)
  proxyByTarget : List (Addr × Nat)
deriving DecidableEq, Repr

/-- Association-list lookup: first match wins (entries are prepended on
insert, so this models Go map overwrite semantics). -/
def mapFind? {α β : Type} [DecidableEq α] : List (α × β) → α → Option β
  | [], _ => none
  | (k, v) :: rest, k2 => if k = k2 then some v else mapFind? rest k2

/-- Dereference a store index.  Reachable states never hold dangling
indices; the default mirrors Go's zero value of `proxy`. -/
def storeGet (f : Filter) (r : Nat) : proxy :=
  f.store.getD r { pid := 0, ip := "", target := { Ip := "", Port := 0 } }

/-- Character-list prefix test, used to model `strings` suffix matching. -/
def isPrefixOfChars : List Char → List Char → Bool
  | [], _ => true
  | _ :: _, [] => false
  | a :: as, b :: bs => a = b && isPrefixOfChars as bs

/-- `strings.EndsWith(s, suffix)` (i.e. `strings.HasSuffix`): `suffix` is a
suffix of `s`. -/
def strEndsWith (s suffix : String) : Bool :=
  isPrefixOfChars suffix.data.reverse s.data.reverse

/-- Decimal digits to a number; `none` when empty or a non-digit occurs. -/
def digitsToNat? (cs : List Char) : Option Nat :=
  if cs = [] then none
  else if cs.all (fun c => c.isDigit) then
    some (cs.foldl (fun n c => n * 10 + (c.toNat - 48)) 0)
  else none

/-- `strconv.Atoi`: optional sign, decimal digits, 64-bit range check. -/
def goAtoi (s : String) : Option Int :=
  let signed : Option Int :=
    match s.data with
    | '+' :: rest => (digitsToNat? rest).map (fun n => (n : Int))
    | '-' :: rest => (digitsToNat? rest).map (fun n => -(n : Int))
    | l => (digitsToNat? l).map (fun n => (n : Int))
  match signed with
  | none => none
  | some v => if -(2 ^ 63) ≤ v ∧ v ≤ 2 ^ 63 - 1 then some v else none

/-- Go's `int32(n)` conversion: wrap into `[-2^31, 2^31)`. -/
def int32ofInt (n : Int) : Int :=
  (n + 2 ^ 31) % 2 ^ 32 - 2 ^ 31

/-- The argument scan of `extractProxyInfo`: walk indices `0 ≤ i < len-1`,
on `-container-ip` set the target IP from the next argument, on
`-container-port` parse the next argument (`none` on parse failure).
Later occurrences overwrite earlier ones, as in the Go loop. -/
def scanArgs : List String → Addr → Option Addr
  | a :: b :: rest, acc =>
    if a = "-container-ip" then
      scanArgs (b :: rest) { acc with Ip := b }
    else if a = "-container-port" then
      match goAtoi b with
      | none => none
      | some port => scanArgs (b :: rest) { acc with Port := int32ofInt port }
    else
      scanArgs (b :: rest) acc
  | _, acc => some acc

/-- `extractProxyInfo`: a process is a proxy candidate iff its first
command-line argument ends with "docker-proxy"; the remaining arguments are
scanned for target flags; an empty target IP rejects the candidate.
(The source's extra comparison of the string field against `0` has no
string-typed counterpart and is dropped.) -/
def extractProxyInfo (p : FilledProcess) : Option proxy :=
  match p.Cmdline with
  | [] => none
  | arg0 :: _ =>
    if strEndsWith arg0 "docker-proxy" then
      match scanArgs p.Cmdline { Ip := "", Port := 0 } with
      | none => none
      | some tgt =>
        if tgt.Ip = "" then none
        else some { pid := p.Pid, ip := "", target := tgt }
    else none

/-- One iteration of the `LoadProxies` loop: on detection, allocate the
record and insert it into both maps. -/
def loadStep (f : Filter) (p : FilledProcess) : Filter :=
  match extractProxyInfo p with
  | none => f
  | some pr =>
    { store := f.store ++ [pr]
      proxyByPID := (pr.pid, f.store.length) :: f.proxyByPID
      proxyByTarget := (pr.target, f.store.length) :: f.proxyByTarget }

/-- `LoadProxies`: fold the loop body over the snapshot (the snapshot is a
Go map; its iteration order is abstracted as the list order). -/
def LoadProxies (f : Filter) (procs : List FilledProcess) : Filter :=
  procs.foldl loadStep f

/-- `discoverProxyIP`: one end of the connection must match the record's
target; the proxy IP is the other end. -/
def discoverProxyIP (f : Filter) (r : Nat) (c : Connection) : Filter :=
  match f.store.get? r with
  | none => f
  | some p =>
    if c.Laddr.Ip = p.target.Ip ∧ c.Laddr.Port = p.target.Port then
      { f with store := f.store.set r { p with ip := c.Raddr.Ip } }
    else if c.Raddr.Ip = p.target.Ip ∧ c.Raddr.Port = p.target.Port then
      { f with store := f.store.set r { p with ip := c.Laddr.Ip } }
    else f

/-- `isProxied`: look up the local endpoint as a target; if found, proxied
iff the record's ip equals the remote IP; otherwise look up the remote
endpoint; if found, proxied iff the record's ip equals the local IP. -/
def isProxied (f : Filter) (c : Connection) : Bool :=
  match mapFind? f.proxyByTarget { Ip := c.Laddr.Ip, Port := c.Laddr.Port } with
  | some r => (storeGet f r).ip = c.Raddr.Ip
  | none =>
    match mapFind? f.proxyByTarget { Ip := c.Raddr.Ip, Port := c.Raddr.Port } with
    | some r => (storeGet f r).ip = c.Laddr.Ip
    | none => false

/-- The per-connection body of the `Filter` loop: opportunistic discovery
when the owning pid maps to a record with unknown ip, then the membership
test on the (possibly updated) state.  Returns the new state and whether
the connection is kept. -/
def filterStep (f : Filter) (c : Connection) : Filter × Bool :=
  let f1 :=
    match mapFind? f.proxyByPID c.Pid with
    | some r => if (storeGet f r).ip = "" then discoverProxyIP f r c else f
    | none => f
  (f1, !(isProxied f1 c))

/-- The `Filter` method: process connections in order, dropping proxied
ones; returns the final state and the kept subsequence. -/
def runFilter (f : Filter) : List Connection → Filter × List Connection
  | [] => (f, [])
  | c :: rest =>
    let s := filterStep f c
    let t := runFilter s.1 rest
    (t.1, if s.2 then c :: t.2 else t.2)

/-- The empty registry (`NewFilter` before any load). -/
def emptyFilter : Filter :=
  { store := [], proxyByPID := [], proxyByTarget := [] }

/-- The records detected in a snapshot, in processing order. -/
def detected (procs : List FilledProcess) : List proxy :=
  procs.filterMap extractProxyInfo

/-- Whether some detected record of the snapshot carries pid `k`. -/
def producesPid (procs : List FilledProcess) (k : Int) : Bool :=
  (detected procs).any (fun q => decide (q.pid = k))

/-- Whether some detected record of the snapshot carries target `t`. -/
def producesTarget (procs : List FilledProcess) (t : Addr) : Bool :=
  (detected procs).any (fun q => decide (q.target = t))

/-- The number of records whose observed ip is still unknown; the measure
that strictly decreases whenever discovery learns a non-empty ip. -/
def countEmpty (f : Filter) : Nat :=
  (f.store.filter (fun p => decide (p.ip = ""))).length

/-! ### Concrete fixtures used by witnesses and counterexamples -/

/-- A well-formed docker-proxy process (pid 100, target 10.0.0.5:80). -/
def procP : FilledProcess :=
  { Pid := 100
    Cmdline := ["/usr/bin/docker-proxy", "-container-ip", "10.0.0.5",
                "-container-port", "80"] }

/-- A second well-formed docker-proxy process (pid 200, target 10.0.0.6:81). -/
def procQ : FilledProcess :=
  { Pid := 200
    Cmdline := ["/usr/bin/docker-proxy", "-container-ip", "10.0.0.6",
                "-container-port", "81"] }

/-- A docker-proxy process with pid 200 sharing procP's target. -/
def procR : FilledProcess :=
  { Pid := 200
    Cmdline := ["/usr/bin/docker-proxy", "-container-ip", "10.0.0.5",
                "-container-port", "80"] }

/-- A docker-proxy whose `-container-port` value parses to a negative int. -/
def procNeg : FilledProcess :=
  { Pid := 7
    Cmdline := ["docker-proxy", "-container-ip", "1.2.3.4",
                "-container-port", "-5"] }

/-- A process whose first argument does not end with the proxy name. -/
def procNoSfx : FilledProcess :=
  { Pid := 1
    Cmdline := ["/bin/nginx", "-container-ip", "10.0.0.5",
                "-container-port", "80"] }

/-- A docker-proxy with no `-container-ip` flag. -/
def procNoIp : FilledProcess :=
  { Pid := 2, Cmdline := ["/usr/bin/docker-proxy", "-container-port", "80"] }

/-- A docker-proxy with a non-numeric `-container-port` value. -/
def procBadPort : FilledProcess :=
  { Pid := 3
    Cmdline := ["/usr/bin/docker-proxy", "-container-ip", "10.0.0.5",
                "-container-port", "eighty"] }

/-- The record detection produces for procP. -/
def prP : proxy :=
  { pid := 100, ip := "", target := { Ip := "10.0.0.5", Port := 80 } }

/-- The record detection produces for procR (procP's target, pid 200). -/
def prR : proxy :=
  { pid := 200, ip := "", target := { Ip := "10.0.0.5", Port := 80 } }

/-- A record with known observed ip, used to build literal states. -/
def pA : proxy :=
  { pid := 100, ip := "7.7.7.7", target := { Ip := "10.0.0.5", Port := 80 } }

/-- A record with unknown observed ip, used to build literal states. -/
def pB : proxy :=
  { pid := 200, ip := "", target := { Ip := "10.0.0.6", Port := 81 } }

/-- A two-record registry: pA's ip is known, pB's is not. -/
def fW : Filter :=
  { store := [pA, pB]
    proxyByPID := [(100, 0), (200, 1)]
    proxyByTarget := [(pA.target, 0), (pB.target, 1)] }

/-- A connection owned by pA's pid whose local end is pB's target and whose
remote IP is empty. -/
def cW : Connection :=
  { Pid := 100, Laddr := { Ip := "10.0.0.6", Port := 81 }
    Raddr := { Ip := "", Port := 3 } }

/-- Registry holding exactly procP's record (ip still unknown). -/
def stP : Filter := LoadProxies emptyFilter [procP]

/-- A registry whose single record already has a known observed ip. -/
def stPknown : Filter :=
  { store := [{ pid := 100, ip := "7.7.7.7",
                target := { Ip := "10.0.0.5", Port := 80 } }]
    proxyByPID := [(100, 0)]
    proxyByTarget := [({ Ip := "10.0.0.5", Port := 80 }, 0)] }

/-- A connection owned by an unrelated pid, local end on procP's target. -/
def cKeep : Connection :=
  { Pid := 5, Laddr := { Ip := "10.0.0.5", Port := 80 }
    Raddr := { Ip := "7.7.7.7", Port := 1 } }

/-- A connection owned by the proxy pid, local end on procP's target. -/
def cDisc : Connection :=
  { Pid := 100, Laddr := { Ip := "10.0.0.5", Port := 80 }
    Raddr := { Ip := "7.7.7.7", Port := 2 } }

/-- A proxy-owned connection whose remote IP is the empty string. -/
def cEmptyRem : Connection :=
  { Pid := 100, Laddr := { Ip := "10.0.0.5", Port := 80 }
    Raddr := { Ip := "", Port := 9 } }

/-! ### Generic helper lemmas -/

/-- Dereferencing through `storeGet` agrees with `get?` on valid indices. -/
theorem storeGet_eq_of_get? {f : Filter} {r : Nat} {p : proxy}
    (h : f.store.get? r = some p) : storeGet f r = p := by
  unfold storeGet
  rw [List.getD_eq_get?, h, Option.getD_some]

/-- Writing back the value already stored leaves the list unchanged. -/
theorem set_get_self {α : Type} : ∀ (l : List α) (i : Nat) (a : α),
    l.get? i = some a → l.set i a = l
  | [], _, _, h => by cases h
  | x :: xs, 0, a, h => by
    simp only [List.get?_cons_zero, Option.some.injEq] at h
    simp [h]
  | x :: xs, i + 1, a, h => by
    simp only [List.get?_cons_succ] at h
    simp [set_get_self xs i a h]

/-- The wrapped `int32` conversion lands in the `int32` range. -/
theorem int32ofInt_range (n : Int) :
    -(2 ^ 31) ≤ int32ofInt n ∧ int32ofInt n < 2 ^ 31 := by
  unfold int32ofInt
  have h1 := Int.emod_nonneg (n + 2 ^ 31) (by norm_num : (2 ^ 32 : Int) ≠ 0)
  have h2 := Int.emod_lt_of_pos (n + 2 ^ 31) (by norm_num : (0 : Int) < 2 ^ 32)
  omega

/-- The argument scan keeps the accumulated port inside the int32 range. -/
theorem scanArgs_port_range : ∀ (args : List String) (acc tgt : Addr),
    scanArgs args acc = some tgt →
    -(2 ^ 31) ≤ acc.Port → acc.Port < 2 ^ 31 →
    -(2 ^ 31) ≤ tgt.Port ∧ tgt.Port < 2 ^ 31
  | [], acc, tgt, h, h1, h2 => by
    simp only [scanArgs, Option.some.injEq] at h
    subst h; exact ⟨h1, h2⟩
  | [a], acc, tgt, h, h1, h2 => by
    simp only [scanArgs, Option.some.injEq] at h
    subst h; exact ⟨h1, h2⟩
  | a :: b :: rest, acc, tgt, h, h1, h2 => by
    rw [scanArgs] at h
    by_cases hip : a = "-container-ip"
    · rw [if_pos hip] at h
      exact scanArgs_port_range (b :: rest) _ tgt h h1 h2
    · rw [if_neg hip] at h
      by_cases hport : a = "-container-port"
      · rw [if_pos hport] at h
        cases hat : goAtoi b with
        | none => rw [hat] at h; cases h
        | some v =>
          rw [hat] at h
          exact scanArgs_port_range (b :: rest) _ tgt h
            (int32ofInt_range v).1 (int32ofInt_range v).2
      · rw [if_neg hport] at h
        exact scanArgs_port_range (b :: rest) _ tgt h h1 h2

/-- Unfolding one step of the load fold. -/
theorem LoadProxies_cons (f : Filter) (p : FilledProcess)
    (rest : List FilledProcess) :
    LoadProxies f (p :: rest) = LoadProxies (loadStep f p) rest := rfl

/-- Loading only appends to the record store. -/
theorem LoadProxies_store_prefix : ∀ (procs : List FilledProcess) (f : Filter),
    ∃ tl, (LoadProxies f procs).store = f.store ++ tl
  | [], f => ⟨[], (List.append_nil f.store).symm⟩
  | p :: rest, f => by
    rw [LoadProxies_cons]
    obtain ⟨tl, htl⟩ := LoadProxies_store_prefix rest (loadStep f p)
    unfold loadStep at htl ⊢
    cases hex : extractProxyInfo p with
    | none => rw [hex] at htl; exact ⟨tl, htl⟩
    | some pr =>
      rw [hex] at htl
      exact ⟨[pr] ++ tl, by rw [htl, List.append_assoc]⟩

/-- Lookups in the pid index survive a load that detects no record with
that pid. -/
theorem load_find_pid_none : ∀ (procs : List FilledProcess) (f : Filter) (k : Int),
    (∀ q ∈ detected procs, q.pid ≠ k) →
    mapFind? (LoadProxies f procs).proxyByPID k = mapFind? f.proxyByPID k
  | [], f, k, _ => rfl
  | p :: rest, f, k, hall => by
    rw [LoadProxies_cons]
    cases hex : extractProxyInfo p with
    | none =>
      have hdet : detected (p :: rest) = detected rest := by
        simp [detected, List.filterMap_cons, hex]
      have hall' : ∀ q ∈ detected rest, q.pid ≠ k := by
        intro q hq; exact hall q (by rw [hdet]; exact hq)
      have hstep : loadStep f p = f := by unfold loadStep; rw [hex]
      rw [hstep]
      exact load_find_pid_none rest f k hall'
    | some pr =>
      have hdet : detected (p :: rest) = pr :: detected rest := by
        simp [detected, List.filterMap_cons, hex]
      have hmem : pr ∈ detected (p :: rest) := by
        rw [hdet]; exact List.mem_cons_self pr _
      have hall' : ∀ q ∈ detected rest, q.pid ≠ k := by
        intro q hq
        exact hall q (by rw [hdet]; exact List.mem_cons_of_mem pr hq)
      have hstep : loadStep f p =
          { store := f.store ++ [pr]
            proxyByPID := (pr.pid, f.store.length) :: f.proxyByPID
            proxyByTarget := (pr.target, f.store.length) :: f.proxyByTarget } := by
        unfold loadStep; rw [hex]
      rw [load_find_pid_none rest (loadStep f p) k hall', hstep]
      show (if pr.pid = k then some f.store.length else mapFind? f.proxyByPID k)
        = mapFind? f.proxyByPID k
      rw [if_neg (hall pr hmem)]

/-- Lookups in the target index survive a load that detects no record with
that target. -/
theorem load_find_target_none : ∀ (procs : List FilledProcess) (f : Filter) (t : Addr),
    (∀ q ∈ detected procs, q.target ≠ t) →
    mapFind? (LoadProxies f procs).proxyByTarget t = mapFind? f.proxyByTarget t
  | [], f, t, _ => rfl
  | p :: rest, f, t, hall => by
    rw [LoadProxies_cons]
    cases hex : extractProxyInfo p with
    | none =>
      have hdet : detected (p :: rest) = detected rest := by
        simp [detected, List.filterMap_cons, hex]
      have hall' : ∀ q ∈ detected rest, q.target ≠ t := by
        intro q hq; exact hall q (by rw [hdet]; exact hq)
      have hstep : loadStep f p = f := by unfold loadStep; rw [hex]
      rw [hstep]
      exact load_find_target_none rest f t hall'
    | some pr =>
      have hdet : detected (p :: rest) = pr :: detected rest := by
        simp [detected, List.filterMap_cons, hex]
      have hmem : pr ∈ detected (p :: rest) := by
        rw [hdet]; exact List.mem_cons_self pr _
      have hall' : ∀ q ∈ detected rest, q.target ≠ t := by
        intro q hq
        exact hall q (by rw [hdet]; exact List.mem_cons_of_mem pr hq)
      have hstep : loadStep f p =
          { store := f.store ++ [pr]
            proxyByPID := (pr.pid, f.store.length) :: f.proxyByPID
            proxyByTarget := (pr.target, f.store.length) :: f.proxyByTarget } := by
        unfold loadStep; rw [hex]
      rw [load_find_target_none rest (loadStep f p) t hall', hstep]
      show (if pr.target = t then some f.store.length else mapFind? f.proxyByTarget t)
        = mapFind? f.proxyByTarget t
      rw [if_neg (hall pr hmem)]

/-- When the last detected record with pid `k` is `pr`, the pid index maps
`k` to a store cell holding `pr` after the load. -/
theorem load_find_pid_last : ∀ (procs : List FilledProcess) (f : Filter)
    (k : Int) (pr : proxy),
    (detected procs).reverse.find? (fun q => decide (q.pid = k)) = some pr →
    ∃ r, mapFind? (LoadProxies f procs).proxyByPID k = some r
      ∧ (LoadProxies f procs).store.get? r = some pr
  | [], _, _, _, h => by cases h
  | p :: rest, f, k, pr, h => by
    rw [LoadProxies_cons]
    cases hex : extractProxyInfo p with
    | none =>
      have hdet : detected (p :: rest) = detected rest := by
        simp [detected, List.filterMap_cons, hex]
      have hstep : loadStep f p = f := by unfold loadStep; rw [hex]
      rw [hdet] at h
      rw [hstep]
      exact load_find_pid_last rest f k pr h
    | some q =>
      have hdet : detected (p :: rest) = q :: detected rest := by
        simp [detected, List.filterMap_cons, hex]
      rw [hdet] at h
      rw [List.reverse_cons, List.find?_append] at h
      cases hfr : (detected rest).reverse.find? (fun q => decide (q.pid = k)) with
      | some pr' =>
        rw [hfr] at h
        have hpp : pr' = pr := Option.some.inj h
        rw [← hpp]
        exact load_find_pid_last rest (loadStep f p) k pr' hfr
      | none =>
        rw [hfr, Option.none_or, List.find?_singleton] at h
        by_cases hd : decide (q.pid = k) = true
        case neg => rw [if_neg hd] at h; cases h
        rw [if_pos hd] at h
        have hpid : q.pid = k := of_decide_eq_true hd
        have hqpr : q = pr := Option.some.inj h
        have hnone : ∀ x ∈ detected rest, x.pid ≠ k := by
          intro x hx he
          have := List.find?_eq_none.mp hfr x (List.mem_reverse.mpr hx)
          exact this (decide_eq_true he)
        have hstep : loadStep f p =
            { store := f.store ++ [q]
              proxyByPID := (q.pid, f.store.length) :: f.proxyByPID
              proxyByTarget := (q.target, f.store.length) :: f.proxyByTarget } := by
          unfold loadStep; rw [hex]
        refine ⟨f.store.length, ?_, ?_⟩
        · rw [load_find_pid_none rest (loadStep f p) k hnone, hstep]
          show (if q.pid = k then some f.store.length
            else mapFind? f.proxyByPID k) = some f.store.length
          rw [if_pos hpid]
        · obtain ⟨tl, htl⟩ := LoadProxies_store_prefix rest (loadStep f p)
          rw [htl, hstep]
          have hlen : f.store.length < (f.store ++ [q]).length := by
            simp
          rw [List.get?_append hlen,
            List.get?_append_right (Nat.le_refl f.store.length)]
          simp [hqpr]

/-- When the last detected record with target `t` is `pr`, the target index
maps `t` to a store cell holding `pr` after the load. -/
theorem load_find_target_last : ∀ (procs : List FilledProcess) (f : Filter)
    (t : Addr) (pr : proxy),
    (detected procs).reverse.find? (fun q => decide (q.target = t)) = some pr →
    ∃ r, mapFind? (LoadProxies f procs).proxyByTarget t = some r
      ∧ (LoadProxies f procs).store.get? r = some pr
  | [], _, _, _, h => by cases h
  | p :: rest, f, t, pr, h => by
    rw [LoadProxies_cons]
    cases hex : extractProxyInfo p with
    | none =>
      have hdet : detected (p :: rest) = detected rest := by
        simp [detected, List.filterMap_cons, hex]
      have hstep : loadStep f p = f := by unfold loadStep; rw [hex]
      rw [hdet] at h
      rw [hstep]
      exact load_find_target_last rest f t pr h
    | some q =>
      have hdet : detected (p :: rest) = q :: detected rest := by
        simp [detected, List.filterMap_cons, hex]
      rw [hdet] at h
      rw [List.reverse_cons, List.find?_append] at h
      cases hfr : (detected rest).reverse.find? (fun q => decide (q.target = t)) with
      | some pr' =>
        rw [hfr] at h
        have hpp : pr' = pr := Option.some.inj h
        rw [← hpp]
        exact load_find_target_last rest (loadStep f p) t pr' hfr
      | none =>
        rw [hfr, Option.none_or, List.find?_singleton] at h
        by_cases hd : decide (q.target = t) = true
        case neg => rw [if_neg hd] at h; cases h
        rw [if_pos hd] at h
        have htgt : q.target = t := of_decide_eq_true hd
        have hqpr : q = pr := Option.some.inj h
        have hnone : ∀ x ∈ detected rest, x.target ≠ t := by
          intro x hx he
          have := List.find?_eq_none.mp hfr x (List.mem_reverse.mpr hx)
          exact this (decide_eq_true he)
        have hstep : loadStep f p =
            { store := f.store ++ [q]
              proxyByPID := (q.pid, f.store.length) :: f.proxyByPID
              proxyByTarget := (q.target, f.store.length) :: f.proxyByTarget } := by
          unfold loadStep; rw [hex]
        refine ⟨f.store.length, ?_, ?_⟩
        · rw [load_find_target_none rest (loadStep f p) t hnone, hstep]
          show (if q.target = t then some f.store.length
            else mapFind? f.proxyByTarget t) = some f.store.length
          rw [if_pos htgt]
        · obtain ⟨tl, htl⟩ := LoadProxies_store_prefix rest (loadStep f p)
          rw [htl, hstep]
          have hlen : f.store.length < (f.store ++ [q]).length := by
            simp
          rw [List.get?_append hlen,
            List.get?_append_right (Nat.le_refl f.store.length)]
          simp [hqpr]

/-- In a list with pairwise-distinct pids, `find?` by a member's pid
returns that member. -/
theorem find?_pid_of_mem_unique : ∀ (l : List proxy) (pr : proxy),
    pr ∈ l → l.Pairwise (fun a b => a.pid ≠ b.pid) →
    l.find? (fun q => decide (q.pid = pr.pid)) = some pr
  | [], pr, hmem, _ => absurd hmem (List.not_mem_nil pr)
  | a :: tail, pr, hmem, hpw => by
    have hpw' := List.pairwise_cons.mp hpw
    cases List.mem_cons.mp hmem with
    | inl heq =>
      subst heq
      simp [List.find?]
    | inr htail =>
      have hne : a.pid ≠ pr.pid := hpw'.1 pr htail
      rw [List.find?_cons_of_neg tail (by simp [hne])]
      exact find?_pid_of_mem_unique tail pr htail hpw'.2

/-- `producesPid` spelled out as a universal statement. -/
theorem producesPid_eq_false (procs : List FilledProcess) (k : Int) :
    producesPid procs k = false ↔ ∀ q ∈ detected procs, q.pid ≠ k := by
  unfold producesPid
  rw [List.any_eq_false]
  constructor
  · intro h q hq; exact fun he => h q hq (decide_eq_true he)
  · intro h q hq hd; exact h q hq (of_decide_eq_true hd)

/-- `producesTarget` spelled out as a universal statement. -/
theorem producesTarget_eq_false (procs : List FilledProcess) (t : Addr) :
    producesTarget procs t = false ↔ ∀ q ∈ detected procs, q.target ≠ t := by
  unfold producesTarget
  rw [List.any_eq_false]
  constructor
  · intro h q hq; exact fun he => h q hq (decide_eq_true he)
  · intro h q hq hd; exact h q hq (of_decide_eq_true hd)

/-- A stored record with a non-empty (known) observed ip is never modified
by one filter iteration. -/
theorem filterStep_preserves (f : Filter) (c : Connection) (r : Nat)
    (p : proxy) (hr : f.store.get? r = some p) (hp : p.ip ≠ "") :
    ((filterStep f c).1).store.get? r = some p := by
  show (match mapFind? f.proxyByPID c.Pid with
    | some r2 => if (storeGet f r2).ip = "" then discoverProxyIP f r2 c else f
    | none => f).store.get? r = some p
  cases hm : mapFind? f.proxyByPID c.Pid with
  | none => exact hr
  | some r2 =>
    show (if (storeGet f r2).ip = "" then discoverProxyIP f r2 c
      else f).store.get? r = some p
    by_cases hg : (storeGet f r2).ip = ""
    · rw [if_pos hg]
      unfold discoverProxyIP
      cases hget : f.store.get? r2 with
      | none => exact hr
      | some p2 =>
        show (if c.Laddr.Ip = p2.target.Ip ∧ c.Laddr.Port = p2.target.Port then
            { f with store := f.store.set r2 { p2 with ip := c.Raddr.Ip } }
          else if c.Raddr.Ip = p2.target.Ip ∧ c.Raddr.Port = p2.target.Port then
            { f with store := f.store.set r2 { p2 with ip := c.Laddr.Ip } }
          else f).store.get? r = some p
        have hne : r2 ≠ r := by
          intro he
          subst he
          rw [hget] at hr
          rw [storeGet_eq_of_get? hget] at hg
          exact hp ((Option.some.inj hr) ▸ hg)
        by_cases hL : c.Laddr.Ip = p2.target.Ip ∧ c.Laddr.Port = p2.target.Port
        · rw [if_pos hL]
          show (f.store.set r2 { p2 with ip := c.Raddr.Ip }).get? r = some p
          rw [List.get?_set_ne _ _ hne]
          exact hr
        · rw [if_neg hL]
          by_cases hR : c.Raddr.Ip = p2.target.Ip ∧ c.Raddr.Port = p2.target.Port
          · rw [if_pos hR]
            show (f.store.set r2 { p2 with ip := c.Laddr.Ip }).get? r = some p
            rw [List.get?_set_ne _ _ hne]
            exact hr
          · rw [if_neg hR]
            exact hr
    · rw [if_neg hg]
      exact hr

/-- A stored record with a non-empty observed ip survives a whole filter
pass untouched. -/
theorem runFilter_preserves : ∀ (l : List Connection) (f : Filter) (r : Nat)
    (p : proxy), f.store.get? r = some p → p.ip ≠ "" →
    ((runFilter f l).1).store.get? r = some p
  | [], _, _, _, hr, _ => hr
  | c :: rest, f, r, p, hr, hp => by
    show ((runFilter (filterStep f c).1 rest).1).store.get? r = some p
    exact runFilter_preserves rest (filterStep f c).1 r p
      (filterStep_preserves f c r p hr hp) hp

/-- A connection neither of whose ends equals a record's target leaves that
record unchanged in one filter iteration. -/
theorem filterStep_preserves_nomatch (f : Filter) (c : Connection) (r : Nat)
    (p : proxy) (hr : f.store.get? r = some p)
    (hL : ¬(c.Laddr.Ip = p.target.Ip ∧ c.Laddr.Port = p.target.Port))
    (hR : ¬(c.Raddr.Ip = p.target.Ip ∧ c.Raddr.Port = p.target.Port)) :
    ((filterStep f c).1).store.get? r = some p := by
  show (match mapFind? f.proxyByPID c.Pid with
    | some r2 => if (storeGet f r2).ip = "" then discoverProxyIP f r2 c else f
    | none => f).store.get? r = some p
  cases hm : mapFind? f.proxyByPID c.Pid with
  | none => exact hr
  | some r2 =>
    show (if (storeGet f r2).ip = "" then discoverProxyIP f r2 c
      else f).store.get? r = some p
    by_cases hg : (storeGet f r2).ip = ""
    · rw [if_pos hg]
      unfold discoverProxyIP
      cases hget : f.store.get? r2 with
      | none => exact hr
      | some p2 =>
        show (if c.Laddr.Ip = p2.target.Ip ∧ c.Laddr.Port = p2.target.Port then
            { f with store := f.store.set r2 { p2 with ip := c.Raddr.Ip } }
          else if c.Raddr.Ip = p2.target.Ip ∧ c.Raddr.Port = p2.target.Port then
            { f with store := f.store.set r2 { p2 with ip := c.Laddr.Ip } }
          else f).store.get? r = some p
        by_cases he : r2 = r
        · subst he
          rw [hget] at hr
          have hpp : p2 = p := Option.some.inj hr
          subst hpp
          rw [if_neg hL, if_neg hR]
          exact hget
        · by_cases hL2 : c.Laddr.Ip = p2.target.Ip ∧ c.Laddr.Port = p2.target.Port
          · rw [if_pos hL2]
            show (f.store.set r2 { p2 with ip := c.Raddr.Ip }).get? r = some p
            rw [List.get?_set_ne _ _ he]
            exact hr
          · rw [if_neg hL2]
            by_cases hR2 : c.Raddr.Ip = p2.target.Ip ∧ c.Raddr.Port = p2.target.Port
            · rw [if_pos hR2]
              show (f.store.set r2 { p2 with ip := c.Laddr.Ip }).get? r = some p
              rw [List.get?_set_ne _ _ he]
              exact hr
            · rw [if_neg hR2]
              exact hr
    · rw [if_neg hg]
      exact hr

/-- When the connection's pid maps to a record with unknown ip and the
local end equals the record's target, one filter iteration sets the
record's ip to the connection's remote IP. -/
theorem filterStep_discovers (f : Filter) (c : Connection) (r : Nat)
    (p : proxy) (hr : f.store.get? r = some p)
    (hm : mapFind? f.proxyByPID c.Pid = some r) (hp : p.ip = "")
    (hL : c.Laddr.Ip = p.target.Ip ∧ c.Laddr.Port = p.target.Port) :
    ((filterStep f c).1).store.get? r = some { p with ip := c.Raddr.Ip } := by
  show (match mapFind? f.proxyByPID c.Pid with
    | some r2 => if (storeGet f r2).ip = "" then discoverProxyIP f r2 c else f
    | none => f).store.get? r = some { p with ip := c.Raddr.Ip }
  rw [hm]
  show (if (storeGet f r).ip = "" then discoverProxyIP f r c
    else f).store.get? r = some { p with ip := c.Raddr.Ip }
  rw [if_pos (by rw [storeGet_eq_of_get? hr]; exact hp)]
  unfold discoverProxyIP
  rw [hr]
  show (if c.Laddr.Ip = p.target.Ip ∧ c.Laddr.Port = p.target.Port then
      { f with store := f.store.set r { p with ip := c.Raddr.Ip } }
    else if c.Raddr.Ip = p.target.Ip ∧ c.Raddr.Port = p.target.Port then
      { f with store := f.store.set r { p with ip := c.Laddr.Ip } }
    else f).store.get? r = some { p with ip := c.Raddr.Ip }
  rw [if_pos hL]
  show (f.store.set r { p with ip := c.Raddr.Ip }).get? r
    = some { p with ip := c.Raddr.Ip }
  obtain ⟨hlt, -⟩ := List.get?_eq_some.mp hr
  exact List.get?_set_eq_of_lt _ hlt

/-- Overwriting an unknown-ip record with a non-empty ip strictly lowers
the number of unknown-ip records. -/
theorem filter_length_set_lt : ∀ (l : List proxy) (r : Nat) (p : proxy)
    (v : String), l.get? r = some p → p.ip = "" → v ≠ "" →
    ((l.set r { p with ip := v }).filter (fun q => decide (q.ip = ""))).length
      < (l.filter (fun q => decide (q.ip = ""))).length
  | [], _, _, _, h, _, _ => by cases h
  | x :: xs, 0, p, v, h, hp, hv => by
    have hx : x = p := Option.some.inj h
    subst hx
    simp only [List.set, List.filter_cons]
    rw [if_neg (by simp [hv]), if_pos (by simp [hp])]
    exact Nat.lt_succ_of_le (Nat.le_refl _)
  | x :: xs, r + 1, p, v, h, hp, hv => by
    simp only [List.get?_cons_succ] at h
    simp only [List.set, List.filter_cons]
    by_cases hx : decide (x.ip = "") = true
    · rw [if_pos hx, if_pos hx]
      simp only [List.length_cons]
      exact Nat.succ_lt_succ (filter_length_set_lt xs r p v h hp hv)
    · rw [if_neg hx, if_neg hx]
      exact filter_length_set_lt xs r p v h hp hv

/-- One filter iteration either leaves the state exactly as it was or
strictly lowers the number of unknown-ip records. -/
theorem filterStep_state_cases (f : Filter) (c : Connection) :
    (filterStep f c).1 = f ∨ countEmpty (filterStep f c).1 < countEmpty f := by
  show (match mapFind? f.proxyByPID c.Pid with
      | some r2 => if (storeGet f r2).ip = "" then discoverProxyIP f r2 c else f
      | none => f) = f
    ∨ countEmpty (match mapFind? f.proxyByPID c.Pid with
      | some r2 => if (storeGet f r2).ip = "" then discoverProxyIP f r2 c else f
      | none => f) < countEmpty f
  cases hm : mapFind? f.proxyByPID c.Pid with
  | none => exact Or.inl rfl
  | some r2 =>
    show (if (storeGet f r2).ip = "" then discoverProxyIP f r2 c else f) = f
      ∨ countEmpty (if (storeGet f r2).ip = "" then discoverProxyIP f r2 c
          else f) < countEmpty f
    by_cases hg : (storeGet f r2).ip = ""
    · rw [if_pos hg]
      unfold discoverProxyIP
      cases hget : f.store.get? r2 with
      | none => exact Or.inl rfl
      | some p2 =>
        have hp2 : p2.ip = "" := by
          rw [storeGet_eq_of_get? hget] at hg
          exact hg
        show (if c.Laddr.Ip = p2.target.Ip ∧ c.Laddr.Port = p2.target.Port then
              { f with store := f.store.set r2 { p2 with ip := c.Raddr.Ip } }
            else if c.Raddr.Ip = p2.target.Ip ∧ c.Raddr.Port = p2.target.Port then
              { f with store := f.store.set r2 { p2 with ip := c.Laddr.Ip } }
            else f) = f
          ∨ countEmpty (if c.Laddr.Ip = p2.target.Ip ∧ c.Laddr.Port = p2.target.Port then
              { f with store := f.store.set r2 { p2 with ip := c.Raddr.Ip } }
            else if c.Raddr.Ip = p2.target.Ip ∧ c.Raddr.Port = p2.target.Port then
              { f with store := f.store.set r2 { p2 with ip := c.Laddr.Ip } }
            else f) < countEmpty f
        by_cases hL : c.Laddr.Ip = p2.target.Ip ∧ c.Laddr.Port = p2.target.Port
        · rw [if_pos hL]
          by_cases hv : c.Raddr.Ip = ""
          · refine Or.inl ?_
            have h2 : ({ p2 with ip := c.Raddr.Ip } : proxy) = p2 := by
              rw [hv, ← hp2]
            rw [h2, set_get_self f.store r2 p2 hget]
          · refine Or.inr ?_
            show ((f.store.set r2 { p2 with ip := c.Raddr.Ip }).filter
                (fun q => decide (q.ip = ""))).length
              < (f.store.filter (fun q => decide (q.ip = ""))).length
            exact filter_length_set_lt f.store r2 p2 c.Raddr.Ip hget hp2 hv
        · rw [if_neg hL]
          by_cases hR : c.Raddr.Ip = p2.target.Ip ∧ c.Raddr.Port = p2.target.Port
          · rw [if_pos hR]
            by_cases hv : c.Laddr.Ip = ""
            · refine Or.inl ?_
              have h2 : ({ p2 with ip := c.Laddr.Ip } : proxy) = p2 := by
                rw [hv, ← hp2]
              rw [h2, set_get_self f.store r2 p2 hget]
            · refine Or.inr ?_
              show ((f.store.set r2 { p2 with ip := c.Laddr.Ip }).filter
                  (fun q => decide (q.ip = ""))).length
                < (f.store.filter (fun q => decide (q.ip = ""))).length
              exact filter_length_set_lt f.store r2 p2 c.Laddr.Ip hget hp2 hv
          · rw [if_neg hR]
            exact Or.inl rfl
    · rw [if_neg hg]
      exact Or.inl rfl

/-- One filter iteration never raises the unknown-ip count. -/
theorem countEmpty_filterStep_le (f : Filter) (c : Connection) :
    countEmpty (filterStep f c).1 ≤ countEmpty f := by
  cases filterStep_state_cases f c with
  | inl h => rw [h]
  | inr h => exact Nat.le_of_lt h

/-- A whole filter pass never raises the unknown-ip count. -/
theorem countEmpty_runFilter_le : ∀ (l : List Connection) (f : Filter),
    countEmpty (runFilter f l).1 ≤ countEmpty f
  | [], _ => Nat.le_refl _
  | c :: rest, f => by
    show countEmpty (runFilter (filterStep f c).1 rest).1 ≤ countEmpty f
    exact Nat.le_trans (countEmpty_runFilter_le rest (filterStep f c).1)
      (countEmpty_filterStep_le f c)

/-- If a pass returns the state it started from, every single iteration of
the pass left the state unchanged. -/
theorem run_frozen_steps : ∀ (l : List Connection) (f : Filter),
    (runFilter f l).1 = f → ∀ c ∈ l, (filterStep f c).1 = f
  | [], _, _, c, hc => absurd hc (List.not_mem_nil c)
  | c0 :: rest, f, h, c, hc => by
    have h1 : (runFilter (filterStep f c0).1 rest).1 = f := h
    have hle1 := countEmpty_runFilter_le rest (filterStep f c0).1
    rw [h1] at hle1
    have hstep : (filterStep f c0).1 = f := by
      cases filterStep_state_cases f c0 with
      | inl he => exact he
      | inr hlt => exact absurd hle1 (Nat.not_le_of_lt hlt)
    cases List.mem_cons.mp hc with
    | inl he => rw [he]; exact hstep
    | inr ht =>
      have h2 : (runFilter f rest).1 = f := by rw [hstep] at h1; exact h1
      exact run_frozen_steps rest f h2 c ht

/-- When every iteration leaves the state unchanged, a pass returns the
same state and keeps exactly the connections the membership test rejects. -/
theorem run_steps_frozen : ∀ (l : List Connection) (f : Filter),
    (∀ c ∈ l, (filterStep f c).1 = f) →
    runFilter f l = (f, l.filter (fun c => !(isProxied f c)))
  | [], f, _ => by simp [runFilter]
  | c :: rest, f, hall => by
    have hstep : (filterStep f c).1 = f := hall c (List.mem_cons_self c rest)
    have hrest := run_steps_frozen rest f
      (fun c2 hc2 => hall c2 (List.mem_cons_of_mem c hc2))
    have h2 : (filterStep f c).2 = !(isProxied f c) := by
      show (!(isProxied (filterStep f c).1 c)) = (!(isProxied f c))
      rw [hstep]
    show ((runFilter (filterStep f c).1 rest).1,
        if (filterStep f c).2 then c :: (runFilter (filterStep f c).1 rest).2
        else (runFilter (filterStep f c).1 rest).2)
      = (f, (c :: rest).filter (fun c2 => !(isProxied f c2)))
    rw [hstep, hrest, h2, List.filter_cons]

/-! ### Claim theorems -/

/-- C9: detection yields target 10.0.0.5:80 on the canonical docker-proxy
command line, and yields no record when the first argument does not end
with the proxy executable name, when `-container-ip` is missing, or when
the `-container-port` value is not numeric. -/
theorem c9_detection_examples :
    extractProxyInfo procP =
      some { pid := 100, ip := "", target := { Ip := "10.0.0.5", Port := 80 } }
    ∧ extractProxyInfo procNoSfx = none
    ∧ extractProxyInfo procNoIp = none
    ∧ extractProxyInfo procBadPort = none := by
  decide

/-- C6: the filter's output is a subsequence of its input: kept connections
appear unchanged and in their original relative order, dropped ones are
simply absent (the operation is total, so no connection produces an
error). -/
theorem c6_output_sublist (f : Filter) (l : List Connection) :
    List.Sublist (runFilter f l).2 l := by
  induction l generalizing f with
  | nil => exact List.Sublist.refl []
  | cons c rest ih =>
    show List.Sublist (runFilter f (c :: rest)).2 (c :: rest)
    simp only [runFilter]
    cases h : (filterStep f c).2 with
    | true => simpa [h] using List.Sublist.cons₂ c (ih (filterStep f c).1)
    | false => simpa [h] using List.Sublist.cons c (ih (filterStep f c).1)

/-- With both maps empty, one filter iteration keeps the connection and
leaves the state untouched. -/
theorem filterStep_empty {f : Filter} (hp : f.proxyByPID = [])
    (ht : f.proxyByTarget = []) (c : Connection) :
    filterStep f c = (f, true) := by
  simp [filterStep, isProxied, hp, ht, mapFind?]

/-- C8: filtering against an empty registry returns the batch unchanged
(same connections, same order, same length) and performs no observedIP
side effect (the state is returned exactly as given). -/
theorem c8_empty_passthrough (f : Filter) (hp : f.proxyByPID = [])
    (ht : f.proxyByTarget = []) (l : List Connection) :
    runFilter f l = (f, l) := by
  induction l with
  | nil => rfl
  | cons c rest ih =>
    simp [runFilter, filterStep_empty hp ht c, ih]

/-- C8 witness: the empty registry passes a concrete two-element batch
through unchanged. -/
theorem c8_empty_passthrough_witness :
    runFilter emptyFilter [cKeep, cDisc] = (emptyFilter, [cKeep, cDisc]) :=
  c8_empty_passthrough emptyFilter rfl rfl [cKeep, cDisc]

/-- C4: a connection is classified as proxied iff the local endpoint is a
known target whose record's observed ip equals the remote IP, or (when the
local endpoint is not a known target) the remote endpoint is a known
target whose record's observed ip equals the local IP. -/
theorem c4_isProxied_iff (f : Filter) (c : Connection) :
    isProxied f c = true ↔
      ((∃ r, mapFind? f.proxyByTarget { Ip := c.Laddr.Ip, Port := c.Laddr.Port }
          = some r ∧ (storeGet f r).ip = c.Raddr.Ip)
       ∨ (mapFind? f.proxyByTarget { Ip := c.Laddr.Ip, Port := c.Laddr.Port }
            = none
          ∧ ∃ r, mapFind? f.proxyByTarget { Ip := c.Raddr.Ip, Port := c.Raddr.Port }
              = some r ∧ (storeGet f r).ip = c.Laddr.Ip)) := by
  unfold isProxied
  cases hl : mapFind? f.proxyByTarget { Ip := c.Laddr.Ip, Port := c.Laddr.Port } with
  | some r => simp [hl]
  | none =>
    cases hr : mapFind? f.proxyByTarget { Ip := c.Raddr.Ip, Port := c.Raddr.Port } with
    | some r => simp [hl, hr]
    | none => simp [hl, hr]

/-- C1 counterexample: loading a snapshot whose only detected proxy has
pid 200 does not purge the earlier record for pid 100: after the second
load, pid 100 and target 10.0.0.5:80 are still retrievable, although the
new snapshot produced neither. -/
theorem c1_load_counterexample :
    detected [procQ] =
      [{ pid := 200, ip := "", target := { Ip := "10.0.0.6", Port := 81 } }]
    ∧ mapFind? (LoadProxies stP [procQ]).proxyByPID 100 = some 0
    ∧ mapFind? (LoadProxies stP [procQ]).proxyByTarget
        { Ip := "10.0.0.5", Port := 80 } = some 0
    ∧ (LoadProxies stP [procQ]).store.get? 0 =
        some { pid := 100, ip := "", target := { Ip := "10.0.0.5", Port := 80 } } := by
  decide

/-- C2 counterexample: a `-container-port` value that parses to the
negative integer -5 does not invalidate the candidate: a record with
negative port -5 is created. -/
theorem c2_detection_counterexample :
    extractProxyInfo procNeg =
      some { pid := 7, ip := "", target := { Ip := "1.2.3.4", Port := -5 } }
    ∧ ({ pid := 7, ip := "", target := { Ip := "1.2.3.4", Port := -5 } }
        : proxy).target.Port < 0 := by
  decide

/-- C2 amended: a record is created only with a non-empty target IP and a
port in the int32 range; the port need only parse as an integer, so a
negative `-container-port` value is accepted (see the counterexample). -/
theorem c2_record_invariant (p : FilledProcess) (pr : proxy)
    (h : extractProxyInfo p = some pr) :
    pr.target.Ip ≠ "" ∧ -(2 ^ 31) ≤ pr.target.Port ∧ pr.target.Port < 2 ^ 31 := by
  unfold extractProxyInfo at h
  split at h
  · cases h
  · split at h
    · split at h
      · cases h
      · rename_i tgt hsc
        split at h
        · cases h
        · rename_i hip
          have hpr : pr = { pid := p.Pid, ip := "", target := tgt } :=
            (Option.some.inj h).symm
          have hrange := scanArgs_port_range _ _ tgt hsc (by norm_num) (by norm_num)
          rw [hpr]
          exact ⟨hip, hrange.1, hrange.2⟩
    · cases h

/-- C2 amended witness: the invariant evaluated on procP's record. -/
theorem c2_record_invariant_witness :
    prP.target.Ip ≠ ""
    ∧ -(2 ^ 31) ≤ prP.target.Port ∧ prP.target.Port < 2 ^ 31 :=
  c2_record_invariant procP prP (by decide)

/-- C1 amended: Load merges into the registry rather than replacing it:
an entry whose pid (resp. target) is not produced by the new snapshot is
looked up exactly as before the load, and the records it points to are
unchanged (prior entries are overwritten only when the new snapshot
produces the same key). -/
theorem c1_load_merges (f : Filter) (procs : List FilledProcess) (k : Int)
    (t : Addr) (hk : producesPid procs k = false)
    (ht : producesTarget procs t = false) :
    mapFind? (LoadProxies f procs).proxyByPID k = mapFind? f.proxyByPID k
    ∧ mapFind? (LoadProxies f procs).proxyByTarget t = mapFind? f.proxyByTarget t
    ∧ ∀ r, r < f.store.length →
        (LoadProxies f procs).store.get? r = f.store.get? r := by
  refine ⟨load_find_pid_none procs f k ((producesPid_eq_false procs k).mp hk),
    load_find_target_none procs f t ((producesTarget_eq_false procs t).mp ht),
    ?_⟩
  intro r hr
  obtain ⟨tl, htl⟩ := LoadProxies_store_prefix procs f
  rw [htl, List.get?_append hr]

/-- C1 amended witness: loading procQ (pid 200, target 10.0.0.6:81) on top
of stP leaves pid 100 and target 10.0.0.5:80 retrievable exactly as
before. -/
theorem c1_load_merges_witness :
    mapFind? (LoadProxies stP [procQ]).proxyByPID 100
      = mapFind? stP.proxyByPID 100
    ∧ mapFind? (LoadProxies stP [procQ]).proxyByTarget
        { Ip := "10.0.0.5", Port := 80 }
      = mapFind? stP.proxyByTarget { Ip := "10.0.0.5", Port := 80 }
    ∧ ∀ r, r < stP.store.length →
        (LoadProxies stP [procQ]).store.get? r = stP.store.get? r :=
  c1_load_merges stP [procQ] 100 { Ip := "10.0.0.5", Port := 80 }
    (by decide) (by decide)

/-- C7: after Load with pairwise-distinct detected pids, every detected
record is retrievable from the pid index under its pid (the store cell the
index points to holds exactly that record), and whenever a record is the
last detected one bearing its target, the target index points to it (so
records sharing a target leave the index on the last-processed one, while
each stays reachable by pid). -/
theorem c7_two_index_consistency (f : Filter) (procs : List FilledProcess)
    (pr : proxy) (hmem : pr ∈ detected procs)
    (hdist : (detected procs).Pairwise (fun a b => a.pid ≠ b.pid)) :
    (∃ r, mapFind? (LoadProxies f procs).proxyByPID pr.pid = some r
        ∧ (LoadProxies f procs).store.get? r = some pr)
    ∧ ((detected procs).reverse.find? (fun q => decide (q.target = pr.target))
          = some pr →
       ∃ r, mapFind? (LoadProxies f procs).proxyByTarget pr.target = some r
          ∧ (LoadProxies f procs).store.get? r = some pr) := by
  constructor
  · have hrev : (detected procs).reverse.Pairwise (fun a b => a.pid ≠ b.pid) := by
      rw [List.pairwise_reverse]
      exact hdist.imp (fun h => Ne.symm h)
    have hfind := find?_pid_of_mem_unique (detected procs).reverse pr
      (List.mem_reverse.mpr hmem) hrev
    exact load_find_pid_last procs f pr.pid pr hfind
  · intro hlast
    exact load_find_target_last procs f pr.target pr hlast

/-- C7 witness: loading procP then procR (distinct pids 100 and 200, same
target 10.0.0.5:80): procR's record is reachable by pid 200, and the
shared target resolves to procR's record, the one processed last. -/
theorem c7_two_index_consistency_witness :
    (∃ r, mapFind? (LoadProxies emptyFilter [procP, procR]).proxyByPID prR.pid
        = some r
      ∧ (LoadProxies emptyFilter [procP, procR]).store.get? r = some prR)
    ∧ (∃ r, mapFind? (LoadProxies emptyFilter [procP, procR]).proxyByTarget
          prR.target = some r
      ∧ (LoadProxies emptyFilter [procP, procR]).store.get? r = some prR) :=
  ⟨(c7_two_index_consistency emptyFilter [procP, procR] prR
      (by decide) (by decide)).1,
   (c7_two_index_consistency emptyFilter [procP, procR] prR
      (by decide) (by decide)).2 (by decide)⟩

/-- C3 counterexample: the first pass keeps cKeep (the proxy ip is still
unknown) and then discovers the ip from cDisc; re-applying the filter to
the output with the post-pass state drops cKeep, so double application is
not the identity on the first output. -/
theorem c3_idempotence_counterexample :
    (runFilter stP [cKeep, cDisc]).2 = [cKeep]
    ∧ (runFilter (runFilter stP [cKeep, cDisc]).1
        (runFilter stP [cKeep, cDisc]).2).2 = [] := by
  decide

/-- C3 amended: double application of the filter is the identity on the
first output provided the first pass left the registry state unchanged
(i.e. it performed no observedIP discovery); when the first pass does
discover an ip, a connection kept by it can be dropped by the second pass
(see the counterexample). -/
theorem c3_filter_idempotent_of_frozen (f : Filter) (l : List Connection)
    (h : (runFilter f l).1 = f) :
    runFilter f (runFilter f l).2 = ((runFilter f l).1, (runFilter f l).2) := by
  have hsteps := run_frozen_steps l f h
  have h1 := run_steps_frozen l f hsteps
  have hout : (runFilter f l).2 = l.filter (fun c => !(isProxied f c)) := by
    rw [h1]
  have hsub : ∀ c ∈ (runFilter f l).2, (filterStep f c).1 = f := by
    intro c hc
    rw [hout] at hc
    exact hsteps c (List.mem_of_mem_filter hc)
  have h2 := run_steps_frozen ((runFilter f l).2) f hsub
  have h3 : (runFilter f l).2.filter (fun c => !(isProxied f c))
      = (runFilter f l).2 := by
    apply List.filter_eq_self.mpr
    intro a ha
    rw [hout] at ha
    exact (List.mem_filter.mp ha).2
  rw [h2, h3, h]

/-- C3 amended witness: with the registry's only record already known, a
pass drops cKeep without touching the state, and re-filtering the output
is the identity. -/
theorem c3_filter_idempotent_of_frozen_witness :
    runFilter stPknown (runFilter stPknown [cKeep]).2
      = ((runFilter stPknown [cKeep]).1, (runFilter stPknown [cKeep]).2) :=
  c3_filter_idempotent_of_frozen stPknown [cKeep] (by decide)

/-- C5 counterexample: a connection whose local end equals the target and
whose remote IP is the empty string performs an inference that leaves
observedIP equal to that remote IP (the empty string), and a later
connection then changes observedIP away from it, so the first successful
inference does not always win. -/
theorem c5_observedip_counterexample :
    cEmptyRem.Laddr = (storeGet stP 0).target
    ∧ (storeGet stP 0).ip = ""
    ∧ (storeGet (runFilter stP [cEmptyRem]).1 0).ip = cEmptyRem.Raddr.Ip
    ∧ (storeGet (runFilter (runFilter stP [cEmptyRem]).1 [cDisc]).1 0).ip
        ≠ cEmptyRem.Raddr.Ip := by
  decide

/-- C5 amended: once observedIP is a non-empty (known) string the record
is never modified again by the filter; a connection with neither end equal
to the target leaves the record unchanged; and a pid-matched connection
whose local end equals the target of a record with unknown ip sets the
record's ip to that connection's remote IP — which re-enters the unknown
state when that remote IP is the empty string (see the counterexample), so
only a non-empty inference is final. -/
theorem c5_observedip_monotone (f : Filter) (r : Nat) (p : proxy)
    (hr : f.store.get? r = some p) :
    (p.ip ≠ "" → ∀ l : List Connection,
      ((runFilter f l).1).store.get? r = some p)
    ∧ (∀ c : Connection,
        ¬(c.Laddr.Ip = p.target.Ip ∧ c.Laddr.Port = p.target.Port) →
        ¬(c.Raddr.Ip = p.target.Ip ∧ c.Raddr.Port = p.target.Port) →
        ((filterStep f c).1).store.get? r = some p)
    ∧ (∀ c : Connection, mapFind? f.proxyByPID c.Pid = some r → p.ip = "" →
        c.Laddr.Ip = p.target.Ip ∧ c.Laddr.Port = p.target.Port →
        ((filterStep f c).1).store.get? r = some { p with ip := c.Raddr.Ip }) :=
  ⟨fun hp l => runFilter_preserves l f r p hr hp,
   fun c hL hR => filterStep_preserves_nomatch f c r p hr hL hR,
   fun c hm hp hL => filterStep_discovers f c r p hr hm hp hL⟩

/-- C5 amended witness: the record with known ip 7.7.7.7 survives a filter
pass over a proxy-owned connection unchanged. -/
theorem c5_observedip_monotone_witness :
    ((runFilter stPknown [cDisc]).1).store.get? 0 = some pA :=
  (c5_observedip_monotone stPknown 0 pA (by decide)).1 (by decide) [cDisc]

/-- C10 counterexample: with the proxy's observedIP still unknown, the
proxy-owned connection cDisc has its local end on the target and a
non-empty remote IP, yet it is dropped (discovery sets the ip before the
membership test), so "dropped exactly when the opposite IP is empty" fails. -/
theorem c10_emptyip_counterexample :
    (storeGet stP 0).ip = ""
    ∧ cDisc.Laddr = (storeGet stP 0).target
    ∧ cDisc.Raddr.Ip ≠ ""
    ∧ (runFilter stP [cDisc]).2 = [] := by
  decide

/-- C10 amended: for a connection whose owning pid does not resolve to an
unknown-ip record (so no discovery precedes the membership test), if an
endpoint matches the target of a loaded proxy whose observedIP is still the
empty string, the connection is dropped exactly when the opposite
endpoint's IP is the empty string; a pid-matched connection is instead
dropped whenever an end matches the target (see the counterexample). -/
theorem c10_emptyip_drop (f : Filter) (c : Connection)
    (hnd : ∀ r, mapFind? f.proxyByPID c.Pid = some r → (storeGet f r).ip ≠ "") :
    (∀ r, mapFind? f.proxyByTarget { Ip := c.Laddr.Ip, Port := c.Laddr.Port }
        = some r → (storeGet f r).ip = "" →
        ((runFilter f [c]).2 = [] ↔ c.Raddr.Ip = ""))
    ∧ (mapFind? f.proxyByTarget { Ip := c.Laddr.Ip, Port := c.Laddr.Port }
        = none →
       ∀ r, mapFind? f.proxyByTarget { Ip := c.Raddr.Ip, Port := c.Raddr.Port }
        = some r → (storeGet f r).ip = "" →
        ((runFilter f [c]).2 = [] ↔ c.Laddr.Ip = "")) := by
  have hfrozen : (filterStep f c).1 = f := by
    show (match mapFind? f.proxyByPID c.Pid with
      | some r2 => if (storeGet f r2).ip = "" then discoverProxyIP f r2 c else f
      | none => f) = f
    cases hm : mapFind? f.proxyByPID c.Pid with
    | none => rfl
    | some r2 =>
      show (if (storeGet f r2).ip = "" then discoverProxyIP f r2 c else f) = f
      rw [if_neg (hnd r2 hm)]
  have hdrop : (runFilter f [c]).2 = [] ↔ isProxied f c = true := by
    show (if (filterStep f c).2 then c :: (runFilter (filterStep f c).1 []).2
      else (runFilter (filterStep f c).1 []).2) = [] ↔ isProxied f c = true
    have h2 : (filterStep f c).2 = !(isProxied f c) := by
      show (!(isProxied (filterStep f c).1 c)) = (!(isProxied f c))
      rw [hfrozen]
    rw [h2]
    cases hp : isProxied f c with
    | true => simp [hp, runFilter]
    | false => simp [hp, runFilter]
  constructor
  · intro r hl hip
    rw [hdrop]
    unfold isProxied
    rw [hl]
    show decide ((storeGet f r).ip = c.Raddr.Ip) = true ↔ c.Raddr.Ip = ""
    rw [decide_eq_true_eq, hip]
    exact eq_comm
  · intro hl r hr hip
    rw [hdrop]
    unfold isProxied
    rw [hl, hr]
    show decide ((storeGet f r).ip = c.Laddr.Ip) = true ↔ c.Laddr.Ip = ""
    rw [decide_eq_true_eq, hip]
    exact eq_comm

/-- C10 amended witness: in fW, cW is owned by the known-ip record pA while
its local end is the unknown-ip record pB's target; with cW's remote IP
empty the equivalence holds (and cW is indeed dropped). -/
theorem c10_emptyip_drop_witness :
    (runFilter fW [cW]).2 = [] ↔ cW.Raddr.Ip = "" :=
  (c10_emptyip_drop fW cW
    (by
      intro r hr
      rw [show mapFind? fW.proxyByPID cW.Pid = some 0 from by decide] at hr
      cases hr
      decide)).1 1 (by decide) (by decide)

end dockerproxy
